import Mathlib

/-!
Shallow embedding of the phase-routed conversational workflow
(`src/workflow/workflow.py`), the stateless chat endpoint
(`src/app.py`) and the in-memory session store
(`src/services/session_store.py`).

Language-model calls and tool executions are opaque collaborators;
they are parameters of the engine (`Env`).  Messages carry an
identity string, mirroring LangChain message ids, and state merging
follows LangGraph's `add_messages` reducer: a message whose id is
already present replaces the old one in place, otherwise it is
appended.
-/

namespace MedChat

/-- A structured tool-call entry attached to an assistant message. -/
structure ToolCall where
  name : String
  args : String
  call_id : String
  deriving DecidableEq, Repr

/-- The decoded content of a tool-result message: either a JSON object
whose fields are string-valued (the result of `json.loads`), or content
that `json.loads` rejects. -/
inductive ToolContent where
  | obj (fields : List (String × String))
  | malformed
  deriving DecidableEq, Repr

/-- Conversation message (LangChain `HumanMessage` / `AIMessage` /
`ToolMessage` / `SystemMessage`), each carrying its identity string. -/
inductive Msg where
  | human (id : String) (content : String)
  | ai (id : String) (content : String) (tool_calls : List ToolCall)
  | tool (id : String) (content : ToolContent) (tool_call_id : String)
  | system (id : String) (content : String)
  deriving DecidableEq, Repr

/-- The identity key used by the `add_messages` reducer. -/
def Msg.msgId : Msg → String
  | .human i _ => i
  | .ai i _ _ => i
  | .tool i _ _ => i
  | .system i _ => i

def idsOf (l : List Msg) : List String := l.map Msg.msgId

/-- Source `models/schemas.py` `UserProfile`: seven required string fields. -/
structure UserProfile where
  first_name : String
  last_name : String
  national_id : String
  gender : String
  date_of_birth : String
  hmo : String
  insurance_tier : String
  deriving DecidableEq, Repr

/-- Source `workflow.py` `WorkflowState`: messages (with the `add_messages`
reducer), optional user profile, optional phase string. -/
structure WorkflowState where
  messages : List Msg
  user_profile : Option UserProfile
  phase : Option String
  deriving DecidableEq, Repr

/-- The partial state update a LangGraph node returns: the messages
delta, and for `user_profile` / `phase` either `none` (key absent from
the returned dict) or `some v` (key present with value `v`). -/
structure NodeUpdate where
  messages : List Msg
  user_profile : Option (Option UserProfile)
  phase : Option (Option String)
  deriving DecidableEq, Repr

/-- One step of LangGraph's `add_messages` reducer: replace in place on
an id match, append otherwise. -/
def mergeOne (l : List Msg) (m : Msg) : List Msg :=
  if l.any (fun x => x.msgId == m.msgId) then
    l.map (fun x => if x.msgId == m.msgId then m else x)
  else l ++ [m]

/-- LangGraph's `add_messages` reducer on already-id-bearing messages. -/
def add_messages (l r : List Msg) : List Msg := r.foldl mergeOne l

/-- Applying a node's returned update to the running state: messages are
merged through `add_messages`; `user_profile` and `phase` are
overwritten when their key is present and kept otherwise. -/
def applyUpdate (s : WorkflowState) (u : NodeUpdate) : WorkflowState :=
  { messages := add_messages s.messages u.messages
    user_profile := u.user_profile.getD s.user_profile
    phase := u.phase.getD s.phase }

/-- Nodes of the compiled graph, plus the implicit terminal state
(LangGraph `END`). -/
inductive Node where
  | entry
  | collector
  | extraction
  | responder
  | search
  | terminal
  deriving DecidableEq, Repr

/-- The assistant message an LLM invocation returns. -/
structure AIMsg where
  id : String
  content : String
  tool_calls : List ToolCall
  deriving DecidableEq, Repr

def AIMsg.toMsg (m : AIMsg) : Msg := .ai m.id m.content m.tool_calls

/-- The opaque collaborators: the two bound LLMs and the two
`ToolNode` executions, plus the two prompt files. -/
structure Env where
  collectorLlm : List Msg → AIMsg
  qaLlm : List Msg → AIMsg
  extractToolExec : WorkflowState → List Msg
  searchToolExec : WorkflowState → List Msg
  collectorPrompt : String
  qaPrompt : String

/-- Node `collector_agent`: prepend the collection prompt as a system
message, invoke the collector LLM, return its response together with
the pass-through profile and phase keys. -/
def collector_agent (E : Env) (s : WorkflowState) : NodeUpdate :=
  { messages := [(E.collectorLlm (.system "sys" E.collectorPrompt :: s.messages)).toMsg]
    user_profile := some s.user_profile
    phase := some s.phase }

/-- Node `qa_agent`: prepend the QA prompt as a system message, invoke the
QA LLM, return its response together with the pass-through profile and
phase keys. -/
def qa_agent (E : Env) (s : WorkflowState) : NodeUpdate :=
  { messages := [(E.qaLlm (.system "sys" E.qaPrompt :: s.messages)).toMsg]
    user_profile := some s.user_profile
    phase := some s.phase }

/-- Node `entry_point`: returns `{"messages": []}` — no new messages and no
`user_profile` / `phase` keys. -/
def entry_point (_s : WorkflowState) : NodeUpdate :=
  { messages := [], user_profile := none, phase := none }

/-- Parsing a `json.loads` result to `UserProfile(**data)`: pydantic requires all
seven fields to be present (extra keys are ignored); any missing field
or malformed JSON fails the parse. -/
def parseUserProfile : ToolContent → Option UserProfile
  | .malformed => none
  | .obj fs => do
      let fn ← (fs.find? (fun p => p.1 == "first_name")).map (·.2)
      let ln ← (fs.find? (fun p => p.1 == "last_name")).map (·.2)
      let nid ← (fs.find? (fun p => p.1 == "national_id")).map (·.2)
      let g ← (fs.find? (fun p => p.1 == "gender")).map (·.2)
      let dob ← (fs.find? (fun p => p.1 == "date_of_birth")).map (·.2)
      let hmo ← (fs.find? (fun p => p.1 == "hmo")).map (·.2)
      let tier ← (fs.find? (fun p => p.1 == "insurance_tier")).map (·.2)
      pure ⟨fn, ln, nid, g, dob, hmo, tier⟩

/-- Node `handle_extraction_tool` given the `ToolNode` result messages: the
body indexes `tool_messages[0]`, `json.loads` its content and builds a
`UserProfile`, all inside `try/except`, so any failure (malformed
content, missing fields, or an empty result list) yields `None` rather
than an exception; the tool messages are returned and phase is set to
`"qa"` unconditionally. -/
def handle_extraction_tool (toolMsgs : List Msg) : NodeUpdate :=
  let profile : Option UserProfile :=
    match toolMsgs.head? with
    | some (.tool _ c _) => parseUserProfile c
    | _ => none
  { messages := toolMsgs
    user_profile := some profile
    phase := some (some "qa") }

/-- Node `handle_search_tool` given the `ToolNode` result messages: returns
only the `messages` key. -/
def handle_search_tool (toolMsgs : List Msg) : NodeUpdate :=
  { messages := toolMsgs, user_profile := none, phase := none }

/-- Dispatch a node on the current state. -/
def applyNode (E : Env) : Node → WorkflowState → NodeUpdate
  | .entry, s => entry_point s
  | .collector, s => collector_agent E s
  | .responder, s => qa_agent E s
  | .extraction, s => handle_extraction_tool (E.extractToolExec s)
  | .search, s => handle_search_tool (E.searchToolExec s)
  | .terminal, _ => { messages := [], user_profile := none, phase := none }

/-- Python expression `state.get("phase") or "collection"`: Python `or` falls back when
the phase is `None` or the empty string. -/
def phaseOrCollection : Option String → String
  | none => "collection"
  | some s => if s = "" then "collection" else s

/-- Router `route_from_entry`: `"qa_agent" if phase == "qa" else "collector_agent"`. -/
def route_from_entry (s : WorkflowState) : Node :=
  if phaseOrCollection s.phase = "qa" then .responder else .collector

/-- Router `route_after_collector`: an assistant message with a non-empty
`tool_calls` list goes to the extraction handler; any other non-human
message is terminal; a human message re-enters the collector. -/
def route_after_collector (s : WorkflowState) : Node :=
  match s.messages.getLast? with
  | some (.ai _ _ tcs) => if tcs.isEmpty then .terminal else .extraction
  | some (.human _ _) => .collector
  | some _ => .terminal
  | none => .terminal

/-- Router `route_after_qa`: an assistant message with a non-empty
`tool_calls` list goes to the search handler; any other non-human
message is terminal; a human message re-enters the QA agent. -/
def route_after_qa (s : WorkflowState) : Node :=
  match s.messages.getLast? with
  | some (.ai _ _ tcs) => if tcs.isEmpty then .terminal else .search
  | some (.human _ _) => .responder
  | some _ => .terminal
  | none => .terminal

/-- The full transition table of the compiled graph: conditional edges
from entry / collector / responder, fixed edges from the two tool
handlers back to the QA agent. -/
def routeFrom : Node → WorkflowState → Node
  | .entry, s => route_from_entry s
  | .collector, s => route_after_collector s
  | .responder, s => route_after_qa s
  | .extraction, _ => .responder
  | .search, _ => .responder
  | .terminal, _ => .terminal

/-- The only failure of the execution loop: LangGraph's
`GraphRecursionError` when the configured `recursion_limit` is
exhausted. -/
inductive RunError where
  | recursionLimit
  deriving DecidableEq, Repr

/-- The execution loop: starting from a node, repeatedly execute the
node, merge its update, and follow the transition table, until `END`
is reached or the step budget runs out. -/
def runFrom (E : Env) : Nat → Node → WorkflowState → Except RunError WorkflowState
  | 0, node, s => if node = .terminal then .ok s else .error .recursionLimit
  | n + 1, node, s =>
      if node = .terminal then .ok s
      else
        let s2 := applyUpdate s (applyNode E node s)
        runFrom E n (routeFrom node s2) s2

/-- Source `app.py` `/chat` runs with `config={"recursion_limit": 50}`. -/
def recursion_limit : Nat := 50

/-! ### Session store (`src/services/session_store.py`)

Time is modelled as minutes on a monotone clock (`Nat`); the timeout
comparison `datetime.now() - session.last_activity > self.session_timeout`
becomes `now - last_activity > session_timeout`. -/

/-- Source `models/schemas.py` `ChatSession` (timestamps in minutes). -/
structure ChatSession where
  session_id : String
  conversation_history : List (String × String)
  user_profile : Option UserProfile
  current_phase : String
  created_at : Nat
  last_activity : Nat
  deriving DecidableEq, Repr

/-- Type `SessionStore`: the keyed map (as an association list) and the
configured timeout in minutes. -/
structure SessionStore where
  sessions : List (String × ChatSession)
  session_timeout : Nat
  deriving DecidableEq, Repr

def lookupSession (st : SessionStore) (id : String) : Option ChatSession :=
  (st.sessions.find? (fun p => p.1 == id)).map (·.2)

/-- Method `SessionStore.get_session` at clock `now`: `None` for an unknown id;
for a known session whose last activity is older than the timeout, the
entry is deleted and `None` is returned; otherwise the session is
returned and the store is unchanged. -/
def get_session (st : SessionStore) (now : Nat) (id : String) :
    Option ChatSession × SessionStore :=
  match lookupSession st id with
  | none => (none, st)
  | some sess =>
      if now - sess.last_activity > st.session_timeout then
        (none, { st with sessions := st.sessions.filter (fun p => !(p.1 == id)) })
      else (sess, st)

/-- The module-level store `SessionStore(session_timeout_minutes=60)`. -/
def session_store : SessionStore := { sessions := [], session_timeout := 60 }

/-! ### Stateless chat endpoint (`src/app.py`) -/

/-- Function `extract_response_from_workflow_result`, restricted to the profile
and phase components: iterate the node updates of the final chunk,
taking `user_profile` when the key is present and truthy (a pydantic
model is always truthy, `None` is falsy) and `phase` when the key is
present and truthy (a non-empty string); phase defaults to
`"collection"`. -/
def extractProfilePhase (finalState : List NodeUpdate) :
    Option UserProfile × String :=
  finalState.foldl
    (fun acc u =>
      let p := match u.user_profile with
        | some (some prof) => some prof
        | _ => acc.1
      let ph := match u.phase with
        | some (some str) => if str = "" then acc.2 else str
        | _ => acc.2
      (p, ph))
    (none, "collection")

/-- Source `app.py` `/chat`: `requires_confirmation = (updated_user_profile is
not None and workflow_phase == "qa" and request.user_profile is None)`. -/
def requires_confirmation (finalState : List NodeUpdate)
    (requestProfile : Option UserProfile) : Bool :=
  (extractProfilePhase finalState).1.isSome &&
    (extractProfilePhase finalState).2 == "qa" &&
    requestProfile.isNone

/-! ### Concrete stub collaborators and states

Deterministic stand-ins for the language model and the tools, used to
exercise the engine on concrete runs.  Generated message ids embed the
length of the message list at generation time, so every generated id is
fresh for the run it appears in. -/

/-- A stub extraction tool call. -/
def stubToolCall : ToolCall := ⟨"extract_user_info", "args", "call_1"⟩

/-- A stub search tool call. -/
def stubSearchCall : ToolCall := ⟨"search_info", "query", "call_2"⟩

/-- A stub model that answers every invocation with a tool-call-only
response (spec Scenario D), and tools that return one tool message. -/
def loopEnv : Env :=
  { collectorLlm := fun msgs => ⟨"a" ++ toString msgs.length, "", [stubToolCall]⟩
    qaLlm := fun msgs => ⟨"b" ++ toString msgs.length, "", [stubSearchCall]⟩
    extractToolExec := fun s =>
      [.tool ("e" ++ toString s.messages.length) .malformed "call_1"]
    searchToolExec := fun s =>
      [.tool ("t" ++ toString s.messages.length) (.obj [("result", "docs")]) "call_2"]
    collectorPrompt := "collect"
    qaPrompt := "answer" }

/-- A stub model that answers every invocation with a plain text
response and no tool calls. -/
def plainEnv : Env :=
  { collectorLlm := fun msgs => ⟨"a" ++ toString msgs.length, "hello", []⟩
    qaLlm := fun msgs => ⟨"b" ++ toString msgs.length, "answer text", []⟩
    extractToolExec := fun _ => []
    searchToolExec := fun _ => []
    collectorPrompt := "collect"
    qaPrompt := "answer" }

/-- A fully populated profile. -/
def profileDana : UserProfile :=
  ⟨"Dana", "Cohen", "123456789", "female", "01/01/1990", "Maccabi", "gold"⟩

/-- Initial state for the looping run: one human message, collection
phase. -/
def loopInit : WorkflowState :=
  { messages := [.human "u1" "hi"], user_profile := none, phase := some "collection" }

/-- Initial state for a QA-phase turn with a supplied profile. -/
def qaInit : WorkflowState :=
  { messages := [.human "u1" "What does my plan cover?"]
    user_profile := some profileDana
    phase := some "qa" }

/-- The final state of `runFrom plainEnv 3 .entry qaInit`. -/
def qaFinal : WorkflowState :=
  { messages := [.human "u1" "What does my plan cover?", .ai "b2" "answer text" []]
    user_profile := some profileDana
    phase := some "qa" }

/-- A tool result carrying only five of the seven profile fields. -/
def fiveFieldContent : ToolContent :=
  .obj [("first_name", "Dana"), ("last_name", "Cohen"),
        ("national_id", "123456789"), ("gender", "female"),
        ("date_of_birth", "01/01/1990")]

/-- The tool-result message for the five-field extraction. -/
def toolMsgFive : Msg := .tool "e1" fiveFieldContent "call_1"

/-- An environment whose extraction tool returns the five-field
result. -/
def failEnv : Env :=
  { plainEnv with extractToolExec := fun _ => [toolMsgFive] }

/-- A collection-phase state whose last message is an extraction tool
call. -/
def colState : WorkflowState :=
  { messages := [.human "u1" "hi", .ai "a2" "" [stubToolCall]]
    user_profile := none
    phase := some "collection" }

/-- A state whose last message is an assistant message with both
content text and a tool call. -/
def c3State : WorkflowState :=
  { messages := [.human "u1" "hi", .ai "a2" "also has text" [stubToolCall]]
    user_profile := none
    phase := some "collection" }

/-- A state whose last message is a tool-role message. -/
def toolLastState : WorkflowState :=
  { messages := [.human "u1" "hi", .ai "a2" "" [stubToolCall], .tool "e3" .malformed "call_1"]
    user_profile := none
    phase := some "qa" }

/-- A stored session whose last activity is at minute 0. -/
def sessOld : ChatSession :=
  ⟨"s1", [("assistant", "welcome")], none, "collection", 0, 0⟩

/-- A store holding that one session, with the default 60-minute
timeout. -/
def storeOne : SessionStore := { sessions := [("s1", sessOld)], session_timeout := 60 }

/-! ### Helper lemmas on the `add_messages` reducer -/

theorem mergeOne_of_not_mem (l : List Msg) (m : Msg) (h : m.msgId ∉ idsOf l) :
    mergeOne l m = l ++ [m] := by
  unfold mergeOne
  rw [if_neg]
  simp only [List.any_eq_true, beq_iff_eq, not_exists, not_and]
  intro x hx hid
  exact h (by simpa [idsOf, hid] using List.mem_map_of_mem Msg.msgId hx)

theorem mergeOne_length (l : List Msg) (m : Msg) :
    l.length ≤ (mergeOne l m).length := by
  unfold mergeOne
  split
  · simp
  · simp

theorem add_messages_length (r l : List Msg) :
    l.length ≤ (add_messages l r).length := by
  induction r generalizing l with
  | nil => simp [add_messages]
  | cons m r ih =>
      calc l.length ≤ (mergeOne l m).length := mergeOne_length l m
        _ ≤ (add_messages (mergeOne l m) r).length := ih (mergeOne l m)

theorem add_messages_append_of_nodup (r l : List Msg)
    (h : (idsOf (l ++ r)).Nodup) : add_messages l r = l ++ r := by
  induction r generalizing l with
  | nil => simp [add_messages]
  | cons m r ih =>
      have hids : idsOf (l ++ m :: r) = idsOf l ++ Msg.msgId m :: idsOf r := by
        simp [idsOf]
      rw [hids] at h
      rcases List.nodup_append.mp h with ⟨_, _, hdisj⟩
      have hnm : m.msgId ∉ idsOf l := fun hmem =>
        hdisj hmem (List.mem_cons_self _ _)
      have hstep : mergeOne l m = l ++ [m] := mergeOne_of_not_mem l m hnm
      have heq : l ++ m :: r = (l ++ [m]) ++ r := by simp
      have h2 : (idsOf ((l ++ [m]) ++ r)).Nodup := by
        rw [← heq, hids]; exact h
      calc add_messages l (m :: r) = add_messages (mergeOne l m) r := rfl
        _ = add_messages (l ++ [m]) r := by rw [hstep]
        _ = (l ++ [m]) ++ r := ih (l ++ [m]) h2
        _ = l ++ m :: r := heq.symm

theorem mergeOne_self_of_mem (l : List Msg) (m : Msg) (hm : m ∈ l)
    (h : (idsOf l).Nodup) : mergeOne l m = l := by
  unfold mergeOne
  rw [if_pos]
  · have hinj := List.inj_on_of_nodup_map (f := Msg.msgId) (l := l) h
    have : ∀ x ∈ l, (if x.msgId == m.msgId then m else x) = x := by
      intro x hx
      by_cases hid : x.msgId = m.msgId
      · have hxm : x = m := hinj hx hm hid
        simp [hxm]
      · simp [hid]
    calc l.map (fun x => if x.msgId == m.msgId then m else x)
        = l.map id := List.map_congr_left this
      _ = l := List.map_id l
  · exact List.any_eq_true.mpr ⟨m, hm, by simp⟩

theorem add_messages_self (r L : List Msg) (hsub : ∀ m ∈ r, m ∈ L)
    (h : (idsOf L).Nodup) : add_messages L r = L := by
  induction r with
  | nil => rfl
  | cons m r ih =>
      have hm : m ∈ L := hsub m (List.mem_cons_self _ _)
      calc add_messages L (m :: r) = add_messages (mergeOne L m) r := rfl
        _ = add_messages L r := by rw [mergeOne_self_of_mem L m hm h]
        _ = L := ih (fun x hx => hsub x (List.mem_cons_of_mem _ hx))

theorem add_messages_idem (l r : List Msg)
    (h : (idsOf (l ++ r)).Nodup) :
    add_messages (add_messages l r) r = add_messages l r := by
  rw [add_messages_append_of_nodup r l h]
  exact add_messages_self r (l ++ r) (fun m hm => List.mem_append_right l hm) h

/-! ### Helper lemmas on node updates and the execution loop -/

theorem applyNode_phase_cases (E : Env) (node : Node) (s : WorkflowState) :
    (applyNode E node s).phase = none ∨
    (applyNode E node s).phase = some s.phase ∨
    (applyNode E node s).phase = some (some "qa") := by
  cases node <;>
    simp [applyNode, entry_point, collector_agent, qa_agent,
      handle_extraction_tool, handle_search_tool]

theorem stepPhase_qa (E : Env) (node : Node) (s : WorkflowState)
    (h : s.phase = some "qa") :
    (applyUpdate s (applyNode E node s)).phase = some "qa" := by
  cases node <;>
    simp [applyUpdate, applyNode, entry_point, collector_agent, qa_agent,
      handle_extraction_tool, handle_search_tool, h]

theorem stepProfile_preserved (E : Env) (node : Node) (s : WorkflowState)
    (h : node ≠ .extraction) :
    (applyUpdate s (applyNode E node s)).user_profile = s.user_profile := by
  cases node <;> first
    | exact absurd rfl h
    | simp [applyUpdate, applyNode, entry_point, collector_agent, qa_agent,
        handle_search_tool]

/-- The nodes an execution confined to the QA side of the graph can
visit. -/
def QaSide (node : Node) : Prop :=
  node = .entry ∨ node = .responder ∨ node = .search ∨ node = .terminal

theorem route_after_qa_cases (s : WorkflowState) :
    route_after_qa s = .search ∨ route_after_qa s = .responder ∨
    route_after_qa s = .terminal := by
  unfold route_after_qa
  rcases s.messages.getLast? with _ | m
  · simp
  · cases m with
    | ai i c tcs => by_cases h : tcs.isEmpty <;> simp [h]
    | human i c => simp
    | tool i c t => simp
    | system i c => simp

theorem routeFrom_qaSide (node : Node) (s : WorkflowState)
    (hn : QaSide node) (hph : s.phase = some "qa") :
    QaSide (routeFrom node s) := by
  rcases hn with h | h | h | h <;> subst h
  · have : routeFrom .entry s = .responder := by
      simp [routeFrom, route_from_entry, phaseOrCollection, hph]
    rw [this]; right; left; rfl
  · rcases route_after_qa_cases s with h | h | h <;>
      simp only [routeFrom] <;> rw [h]
    · right; right; left; rfl
    · right; left; rfl
    · right; right; right; rfl
  · right; left; rfl
  · right; right; right; rfl

theorem runFrom_succ_of_ne_terminal (E : Env) (n : Nat) (node : Node)
    (s : WorkflowState) (h : node ≠ .terminal) :
    runFrom E (n + 1) node s =
      runFrom E n (routeFrom node (applyUpdate s (applyNode E node s)))
        (applyUpdate s (applyNode E node s)) := by
  simp [runFrom, h]

theorem runFrom_zero_of_ne_terminal (E : Env) (node : Node)
    (s : WorkflowState) (h : node ≠ .terminal) :
    runFrom E 0 node s = .error .recursionLimit := by
  simp [runFrom, h]

theorem runFrom_terminal (E : Env) (n : Nat) (s : WorkflowState) :
    runFrom E n .terminal s = .ok s := by
  cases n <;> simp [runFrom]

theorem runFrom_phase_qa (E : Env) :
    ∀ (n : Nat) (node : Node) (s s2 : WorkflowState),
      s.phase = some "qa" → runFrom E n node s = .ok s2 →
      s2.phase = some "qa" := by
  intro n
  induction n with
  | zero =>
      intro node s s2 hq hrun
      by_cases ht : node = .terminal
      · subst ht; rw [runFrom_terminal] at hrun
        cases hrun; exact hq
      · rw [runFrom_zero_of_ne_terminal E node s ht] at hrun
        cases hrun
  | succ n ih =>
      intro node s s2 hq hrun
      by_cases ht : node = .terminal
      · subst ht; rw [runFrom_terminal] at hrun
        cases hrun; exact hq
      · rw [runFrom_succ_of_ne_terminal E n node s ht] at hrun
        exact ih _ _ _ (stepPhase_qa E node s hq) hrun

theorem runFrom_qaSide_preserves (E : Env) :
    ∀ (n : Nat) (node : Node) (s s2 : WorkflowState),
      QaSide node → s.phase = some "qa" → runFrom E n node s = .ok s2 →
      s2.user_profile = s.user_profile := by
  intro n
  induction n with
  | zero =>
      intro node s s2 _ _ hrun
      by_cases ht : node = .terminal
      · subst ht; rw [runFrom_terminal] at hrun; cases hrun; rfl
      · rw [runFrom_zero_of_ne_terminal E node s ht] at hrun
        cases hrun
  | succ n ih =>
      intro node s s2 hn hq hrun
      by_cases ht : node = .terminal
      · subst ht; rw [runFrom_terminal] at hrun; cases hrun; rfl
      · rw [runFrom_succ_of_ne_terminal E n node s ht] at hrun
        have hnext : QaSide (routeFrom node (applyUpdate s (applyNode E node s))) :=
          routeFrom_qaSide node _ hn (stepPhase_qa E node s hq)
        have hnoext : node ≠ .extraction := by
          rcases hn with h | h | h | h <;> subst h <;> intro hc <;> cases hc
        have hprof := stepProfile_preserved E node s hnoext
        have := ih _ _ _ hnext (stepPhase_qa E node s hq) hrun
        rw [this, hprof]

/-! ### Claims -/

/-- Claim C1, counterexample to the claim as stated: the phase
transition from collection to qa is not triggered only by successful
profile extraction.  In a collection-phase state, running the
extraction handler on a tool result carrying only five of the seven
fields fails the profile parse (output profile is `none`), yet the
phase still transitions to `"qa"`. -/
theorem c1_counterexample :
    colState.phase = some "collection" ∧
    parseUserProfile fiveFieldContent = none ∧
    (applyUpdate colState (applyNode failEnv .extraction colState)).user_profile = none ∧
    (applyUpdate colState (applyNode failEnv .extraction colState)).phase = some "qa" :=
  ⟨rfl, rfl, rfl, rfl⟩

/-- Claim C1 (amended): phase is monotonic.  Every node update either
omits the phase key, passes the input phase through, or writes
`"qa"` — so no node ever writes the value `"collection"`; every node
other than the extraction handler leaves phase unchanged; the
extraction handler sets phase to `"qa"` (whether or not profile
extraction succeeds); and along any run, once phase is `"qa"` it stays
`"qa"`, so the collection-to-qa transition happens at most once and
never reverts. -/
theorem c1_phase_monotonic :
    (∀ (E : Env) (node : Node) (s : WorkflowState),
        (applyNode E node s).phase = none ∨
        (applyNode E node s).phase = some s.phase ∨
        (applyNode E node s).phase = some (some "qa")) ∧
    (∀ (E : Env) (node : Node) (s : WorkflowState), node ≠ .extraction →
        (applyUpdate s (applyNode E node s)).phase = s.phase) ∧
    (∀ (E : Env) (s : WorkflowState),
        (applyUpdate s (applyNode E .extraction s)).phase = some "qa") ∧
    (∀ (E : Env) (n : Nat) (node : Node) (s s2 : WorkflowState),
        s.phase = some "qa" → runFrom E n node s = .ok s2 →
        s2.phase = some "qa") := by
  refine ⟨applyNode_phase_cases, ?_, ?_, runFrom_phase_qa⟩
  · intro E node s h
    cases node <;> first
      | exact absurd rfl h
      | simp [applyUpdate, applyNode, entry_point, collector_agent, qa_agent,
          handle_search_tool]
  · intro E s
    simp [applyUpdate, applyNode, handle_extraction_tool]

/-- Witness for C1 (amended): a concrete QA-phase run with the plain
stub model ends in phase `"qa"`. -/
theorem c1_phase_monotonic_witness :
    qaInit.phase = some "qa" ∧
    runFrom plainEnv 3 .entry qaInit = .ok qaFinal ∧
    qaFinal.phase = some "qa" :=
  ⟨rfl, rfl, c1_phase_monotonic.2.2.2 plainEnv 3 .entry qaInit qaFinal rfl rfl⟩

/-- Claim C2: when the pending tool result fails to parse into a
`UserProfile`, the extraction handler (which wraps the parse in
`try/except` and is modelled as a total function, so no exception
escapes) still returns the tool-result messages, a present-but-`None`
profile key, and phase `"qa"`; applying the update appends the tool
messages and leaves the state with no profile and phase `"qa"`. -/
theorem c2_parse_failure_nonfatal (toolMsgs : List Msg) (i : String)
    (c : ToolContent) (tid : String)
    (hhead : toolMsgs.head? = some (.tool i c tid))
    (hfail : parseUserProfile c = none) :
    (handle_extraction_tool toolMsgs).user_profile = some none ∧
    (handle_extraction_tool toolMsgs).phase = some (some "qa") ∧
    (handle_extraction_tool toolMsgs).messages = toolMsgs ∧
    ∀ s : WorkflowState, (idsOf (s.messages ++ toolMsgs)).Nodup →
      (applyUpdate s (handle_extraction_tool toolMsgs)).messages = s.messages ++ toolMsgs ∧
      (applyUpdate s (handle_extraction_tool toolMsgs)).user_profile = none ∧
      (applyUpdate s (handle_extraction_tool toolMsgs)).phase = some "qa" := by
  have hprof : (handle_extraction_tool toolMsgs).user_profile = some none := by
    simp only [handle_extraction_tool]
    rw [hhead]
    simp [hfail]
  refine ⟨hprof, rfl, rfl, ?_⟩
  intro s hnod
  exact ⟨add_messages_append_of_nodup toolMsgs s.messages hnod,
    by simp [applyUpdate, hprof], rfl⟩

/-- Witness for C2: a tool result with only five of the seven fields
fails the parse, the handler still yields phase `"qa"`, and the tool
message is appended to a concrete state. -/
theorem c2_witness :
    parseUserProfile fiveFieldContent = none ∧
    (handle_extraction_tool [toolMsgFive]).user_profile = some none ∧
    (handle_extraction_tool [toolMsgFive]).phase = some (some "qa") ∧
    (applyUpdate colState (handle_extraction_tool [toolMsgFive])).messages =
      colState.messages ++ [toolMsgFive] :=
  ⟨rfl,
   (c2_parse_failure_nonfatal [toolMsgFive] "e1" fiveFieldContent "call_1" rfl rfl).1,
   (c2_parse_failure_nonfatal [toolMsgFive] "e1" fiveFieldContent "call_1" rfl rfl).2.1,
   ((c2_parse_failure_nonfatal [toolMsgFive] "e1" fiveFieldContent "call_1" rfl rfl).2.2.2
      colState (by decide)).1⟩

/-- Claim C3: when the most recent message is an assistant message
carrying at least one structured tool-call entry, the route after the
collector is the extraction handler and the route after the responder
is the search handler — never the terminal state — even when the
message also carries content text. -/
theorem c3_tool_call_wins (s : WorkflowState) (i c : String)
    (tcs : List ToolCall)
    (hlast : s.messages.getLast? = some (.ai i c tcs)) (hne : tcs ≠ []) :
    routeFrom .collector s = .extraction ∧
    routeFrom .responder s = .search ∧
    routeFrom .collector s ≠ .terminal ∧
    routeFrom .responder s ≠ .terminal := by
  have hemp : tcs.isEmpty = false := by
    cases tcs with
    | nil => exact absurd rfl hne
    | cons a t => rfl
  simp only [routeFrom, route_after_collector, route_after_qa]
  rw [hlast]
  simp [hemp]

/-- Witness for C3: a concrete assistant message with both content
text and a tool call routes to the handlers. -/
theorem c3_witness :
    c3State.messages.getLast? = some (.ai "a2" "also has text" [stubToolCall]) ∧
    routeFrom .collector c3State = .extraction ∧
    routeFrom .responder c3State = .search ∧
    routeFrom .collector c3State ≠ .terminal ∧
    routeFrom .responder c3State ≠ .terminal :=
  ⟨rfl, c3_tool_call_wins c3State "a2" "also has text" [stubToolCall] rfl (by decide)⟩

/-- Claim C4: the entry node is a pure router — applying it changes
nothing in the state (no messages, profile and phase untouched) — and
the next node is the responder exactly when phase is `some "qa"`;
otherwise (including an absent phase) it is the collector. -/
theorem c4_entry_pure_router (E : Env) (s : WorkflowState) :
    applyUpdate s (applyNode E .entry s) = s ∧
    (routeFrom .entry s = .responder ↔ s.phase = some "qa") ∧
    (routeFrom .entry s = .responder ∨ routeFrom .entry s = .collector) := by
  refine ⟨rfl, ?_, ?_⟩
  · simp only [routeFrom, route_from_entry]
    cases hp : s.phase with
    | none => simp [phaseOrCollection]
    | some p =>
        by_cases he : p = ""
        · subst he; simp [phaseOrCollection]
        · by_cases hq : p = "qa" <;> simp [phaseOrCollection, he, hq]
  · simp only [routeFrom, route_from_entry]
    split
    · exact Or.inl rfl
    · exact Or.inr rfl

/-- Claim C5: the execution loop is total — every run either ends in a
state a node declared terminal or fails with the recursion-limit
error; the Scenario-D stub model that answers every invocation with a
tool-call-only response exhausts the 50-step budget and fails with the
recursion-limit error, while a plain-text stub reaches the terminal
state within the same budget. -/
theorem c5_step_budget :
    (∀ (E : Env) (n : Nat) (node : Node) (s : WorkflowState),
        runFrom E n node s = .error .recursionLimit ∨
        ∃ s2, runFrom E n node s = .ok s2) ∧
    runFrom loopEnv recursion_limit .entry loopInit = .error .recursionLimit ∧
    runFrom plainEnv recursion_limit .entry qaInit = .ok qaFinal := by
  refine ⟨?_, rfl, rfl⟩
  intro E n node s
  cases h : runFrom E n node s with
  | error e => cases e with | recursionLimit => exact Or.inl rfl
  | ok s2 => exact Or.inr ⟨s2, rfl⟩

/-- Claim C6: the responder and the search handler leave both profile
and phase unchanged on every invocation, and a whole run that enters
at the entry node in phase `"qa"` (a responder-phase turn) returns the
input profile unchanged and stays in phase `"qa"`. -/
theorem c6_qa_preserves_profile :
    (∀ (E : Env) (s : WorkflowState),
        (applyUpdate s (applyNode E .responder s)).user_profile = s.user_profile ∧
        (applyUpdate s (applyNode E .responder s)).phase = s.phase) ∧
    (∀ (E : Env) (s : WorkflowState),
        (applyUpdate s (applyNode E .search s)).user_profile = s.user_profile ∧
        (applyUpdate s (applyNode E .search s)).phase = s.phase) ∧
    (∀ (E : Env) (n : Nat) (s s2 : WorkflowState),
        s.phase = some "qa" → runFrom E n .entry s = .ok s2 →
        s2.user_profile = s.user_profile ∧ s2.phase = some "qa") := by
  refine ⟨?_, ?_, ?_⟩
  · intro E s
    constructor <;> simp [applyUpdate, applyNode, qa_agent]
  · intro E s
    constructor <;> simp [applyUpdate, applyNode, handle_search_tool]
  · intro E n s s2 hq hrun
    exact ⟨runFrom_qaSide_preserves E n .entry s s2 (Or.inl rfl) hq hrun,
      runFrom_phase_qa E n .entry s s2 hq hrun⟩

/-- Witness for C6: a concrete QA-phase turn with a supplied profile
returns that profile unchanged. -/
theorem c6_witness :
    qaInit.phase = some "qa" ∧
    runFrom plainEnv 3 .entry qaInit = .ok qaFinal ∧
    qaFinal.user_profile = qaInit.user_profile ∧
    qaFinal.user_profile = some profileDana :=
  ⟨rfl, rfl, (c6_qa_preserves_profile.2.2 plainEnv 3 qaInit qaFinal rfl rfl).1, rfl⟩

/-- Claim C7: the stateless `/chat` confirmation-required flag is true
exactly when the final workflow state carries a non-null extracted
profile, the final phase is `"qa"`, and the caller supplied no profile
in the request. -/
theorem c7_confirmation_flag (finalState : List NodeUpdate)
    (reqProfile : Option UserProfile) :
    requires_confirmation finalState reqProfile = true ↔
      ((extractProfilePhase finalState).1 ≠ none ∧
       (extractProfilePhase finalState).2 = "qa" ∧ reqProfile = none) := by
  simp [requires_confirmation, Bool.and_eq_true, Option.isSome_iff_ne_none,
    Option.isNone_iff_eq_none, and_assoc]

/-- Claim C8: `get_session` returns not-found for an unknown id; for a
known session whose last activity is older than the timeout it returns
not-found and evicts the entry, so a later `get_session` at any clock
also returns not-found; the module-level store uses the default
60-minute timeout. -/
theorem c8_session_expiry :
    (∀ (st : SessionStore) (now : Nat) (id : String),
        lookupSession st id = none → get_session st now id = (none, st)) ∧
    (∀ (st : SessionStore) (now : Nat) (id : String) (sess : ChatSession),
        lookupSession st id = some sess →
        now - sess.last_activity > st.session_timeout →
        (get_session st now id).1 = none ∧
        lookupSession (get_session st now id).2 id = none ∧
        (∀ now2 : Nat, (get_session (get_session st now id).2 now2 id).1 = none)) ∧
    session_store.session_timeout = 60 := by
  refine ⟨?_, ?_, rfl⟩
  · intro st now id h
    unfold get_session
    rw [h]
  · intro st now id sess hl hexp
    have hget : get_session st now id =
        (none, { st with sessions := st.sessions.filter (fun p => !(p.1 == id)) }) := by
      unfold get_session
      rw [hl]
      simp [hexp]
    have hlk : lookupSession
        { st with sessions := st.sessions.filter (fun p => !(p.1 == id)) } id = none := by
      have hfind : (st.sessions.filter (fun p => !(p.1 == id))).find?
          (fun p => p.1 == id) = none := by
        apply List.find?_eq_none.mpr
        intro x hx
        have := (List.mem_filter.mp hx).2
        simpa using this
      simp [lookupSession, hfind]
    rw [hget]
    refine ⟨rfl, hlk, ?_⟩
    intro now2
    unfold get_session
    rw [hlk]

/-- Witness for C8: in a store with the default timeout holding a
session last active at minute 0, a lookup at minute 61 returns
not-found and leaves the store without the entry. -/
theorem c8_witness :
    lookupSession storeOne "s1" = some sessOld ∧
    61 - sessOld.last_activity > storeOne.session_timeout ∧
    (get_session storeOne 61 "s1").1 = none ∧
    lookupSession (get_session storeOne 61 "s1").2 "s1" = none ∧
    (get_session (get_session storeOne 61 "s1").2 90 "s1").1 = none :=
  ⟨rfl, by decide,
   (c8_session_expiry.2.1 storeOne 61 "s1" sessOld rfl (by decide)).1,
   (c8_session_expiry.2.1 storeOne 61 "s1" sessOld rfl (by decide)).2.1,
   (c8_session_expiry.2.1 storeOne 61 "s1" sessOld rfl (by decide)).2.2 90⟩

/-- Claim C9: the message sequence only grows — merging a node's
returned messages never shortens the list; when the returned messages
carry fresh identities (all ids distinct) the merge is a pure append
and removes or replaces nothing; repeating the same merge is
idempotent; and `user_profile` / `phase` are overwritten wholesale
when their key is present, regardless of the previous value. -/
theorem c9_append_only_merge :
    (∀ l r : List Msg, l.length ≤ (add_messages l r).length) ∧
    (∀ l r : List Msg, (idsOf (l ++ r)).Nodup → add_messages l r = l ++ r) ∧
    (∀ l r : List Msg, (idsOf (l ++ r)).Nodup →
        add_messages (add_messages l r) r = add_messages l r) ∧
    (∀ (s : WorkflowState) (u : NodeUpdate) (p : Option UserProfile)
        (ph : Option String),
        u.user_profile = some p → u.phase = some ph →
        (applyUpdate s u).user_profile = p ∧ (applyUpdate s u).phase = ph) := by
  refine ⟨fun l r => add_messages_length r l,
    fun l r h => add_messages_append_of_nodup r l h, add_messages_idem, ?_⟩
  intro s u p ph hp hph
  constructor <;> simp [applyUpdate, hp, hph]

/-- Witness for C9: merging a fresh tool message into a concrete state
appends it, repeating the merge changes nothing, and the extraction
handler's update overwrites profile and phase wholesale. -/
theorem c9_witness :
    (idsOf (colState.messages ++ [toolMsgFive])).Nodup ∧
    add_messages colState.messages [toolMsgFive] =
      colState.messages ++ [toolMsgFive] ∧
    add_messages (add_messages colState.messages [toolMsgFive]) [toolMsgFive] =
      add_messages colState.messages [toolMsgFive] ∧
    (applyUpdate qaInit (handle_extraction_tool [toolMsgFive])).user_profile = none ∧
    (applyUpdate qaInit (handle_extraction_tool [toolMsgFive])).phase = some "qa" :=
  ⟨by decide,
   c9_append_only_merge.2.1 colState.messages [toolMsgFive] (by decide),
   c9_append_only_merge.2.2.1 colState.messages [toolMsgFive] (by decide),
   c9_append_only_merge.2.2.2 qaInit (handle_extraction_tool [toolMsgFive])
     none (some "qa") rfl rfl⟩

/-- Claim C10: when the most recent message is neither a human message
nor an assistant message with a non-empty tool-call list (a tool-role
message included), both routing predicates return the terminal state;
and the same-agent fallback is taken only when the most recent message
is human-authored. -/
theorem c10_terminal_routing :
    (∀ (s : WorkflowState) (m : Msg), s.messages.getLast? = some m →
        (∀ i c, m ≠ .human i c) → (∀ i c tcs, m = .ai i c tcs → tcs = []) →
        routeFrom .collector s = .terminal ∧ routeFrom .responder s = .terminal) ∧
    (∀ s : WorkflowState, routeFrom .collector s = .collector →
        ∃ i c, s.messages.getLast? = some (.human i c)) ∧
    (∀ s : WorkflowState, routeFrom .responder s = .responder →
        ∃ i c, s.messages.getLast? = some (.human i c)) := by
  refine ⟨?_, ?_, ?_⟩
  · intro s m hlast hnh hnt
    simp only [routeFrom, route_after_collector, route_after_qa]
    rw [hlast]
    cases m with
    | human i c => exact absurd rfl (hnh i c)
    | ai i c tcs =>
        have : tcs = [] := hnt i c tcs rfl
        subst this
        simp
    | tool i c t => simp
    | system i c => simp
  · intro s h
    simp only [routeFrom, route_after_collector] at h
    rcases hl : s.messages.getLast? with _ | m
    · rw [hl] at h; simp at h
    · rw [hl] at h
      cases m with
      | human i c => exact ⟨i, c, rfl⟩
      | ai _ _ tcs => by_cases he : tcs.isEmpty <;> simp [he] at h
      | tool _ _ _ => simp at h
      | system _ _ => simp at h
  · intro s h
    simp only [routeFrom, route_after_qa] at h
    rcases hl : s.messages.getLast? with _ | m
    · rw [hl] at h; simp at h
    · rw [hl] at h
      cases m with
      | human i c => exact ⟨i, c, rfl⟩
      | ai _ _ tcs => by_cases he : tcs.isEmpty <;> simp [he] at h
      | tool _ _ _ => simp at h
      | system _ _ => simp at h

/-- Witness for C10: a concrete state whose last message is a
tool-role message routes to terminal from both agents. -/
theorem c10_witness :
    toolLastState.messages.getLast? = some (.tool "e3" .malformed "call_1") ∧
    routeFrom .collector toolLastState = .terminal ∧
    routeFrom .responder toolLastState = .terminal :=
  ⟨rfl, c10_terminal_routing.1 toolLastState (.tool "e3" .malformed "call_1") rfl
    (fun _ _ h => Msg.noConfusion h) (fun _ _ _ h => Msg.noConfusion h)⟩

end MedChat
